import Mathlib

/-!
Shallow embedding of the chat-base repository: the message-queue management,
retry/backoff executor and response helpers shared by the two provider
adapters (src/model/openai/OpenAiChat.py and src/model/groq/GroqChat.py).

Python dynamic values are embedded explicitly:
  * a queue element is either a message dict (an association list of string
    keys to string values, preserving insertion order) or a bare string
    (which arises when the Python code extends the queue with the keys of a
    dict passed as the whole input);
  * Python exceptions relevant to this code are an explicit error type;
  * in-place mutation with a possible exception mid-way is modelled by
    returning the queue as mutated so far together with an optional error.
-/

/-- Queue element: a Python dict with string keys and values, or a bare
string (Python list.extend over a dict iterates its keys). -/
inductive QElem where
  | dict (entries : List (String × String))
  | raw (s : String)
deriving DecidableEq, Repr, Inhabited

/-- The Python exception classes this code can raise. -/
inductive PyErr where
  | valueError
  | typeError
  | keyError
  | indexError
deriving DecidableEq, Repr

instance exceptDecEq {ε α : Type} [DecidableEq ε] [DecidableEq α] :
    DecidableEq (Except ε α)
  | .error a, .error b =>
    if h : a = b then .isTrue (by rw [h])
    else .isFalse (fun hh => h (by injection hh))
  | .error _, .ok _ => .isFalse (fun hh => Except.noConfusion hh)
  | .ok _, .error _ => .isFalse (fun hh => Except.noConfusion hh)
  | .ok a, .ok b =>
    if h : a = b then .isTrue (by rw [h])
    else .isFalse (fun hh => h (by injection hh))

/-- An element of a Python list passed to structure_message: a string or a
dict. -/
inductive Elem where
  | str (s : String)
  | dict (entries : List (String × String))
deriving DecidableEq, Repr

/-- The possible shapes of the `message` argument of structure_message:
a string, a list, a bare dict, or a non-iterable value such as a number. -/
inductive PyInput where
  | str (s : String)
  | list (elems : List Elem)
  | dict (entries : List (String × String))
  | int (n : Int)
deriving DecidableEq, Repr

/-- Python dict lookup `d[k]` on a dict embedded as an association list. -/
def lookupStr (k : String) (en : List (String × String)) : Option String :=
  (en.find? (fun p => p.1 == k)).map (fun p => p.2)

/-- The dict `{"role": "user", "content": s}` built by structure_message. -/
def userDict (s : String) : QElem := .dict [("role", "user"), ("content", s)]

/-- The dict `{"role": "system", "content": p}` inserted for the system
prompt. -/
def sysDict (p : String) : QElem := .dict [("role", "system"), ("content", p)]

/-- The dict `{"role": "assistant", "content": s}` appended by get_response. -/
def assistantDict (s : String) : QElem :=
  .dict [("role", "assistant"), ("content", s)]

/-- Evaluating `msg["role"]` on a queue element: a bare string raises
TypeError, a dict without the key raises KeyError. -/
def roleOf : QElem → Except PyErr String
  | .raw _ => .error .typeError
  | .dict en =>
    match lookupStr "role" en with
    | some r => .ok r
    | none => .error .keyError

/-- Python slice `l[k:]` with an arbitrary (possibly negative) integer
start index. -/
def pySlice (k : Int) (l : List α) : List α :=
  if k < 0 then l.drop ((l.length : Int) + k).toNat else l.drop k.toNat

/-- The comprehension `[msg for msg in q if msg["role"] == "system"]`:
evaluates `msg["role"]` on every element left to right, raising at the
first element where the lookup raises. -/
def filterSystems : List QElem → Except PyErr (List QElem)
  | [] => .ok []
  | e :: rest =>
    match roleOf e with
    | .error err => .error err
    | .ok r =>
      match filterSystems rest with
      | .error err => .error err
      | .ok tail => .ok (if r == "system" then e :: tail else tail)

/-- The test `not self.messages_queue or self.messages_queue[0]["role"] !=
"system"` deciding whether a system message is inserted at index 0. -/
def headNeedsInsert : List QElem → Except PyErr Bool
  | [] => .ok true
  | e :: _ =>
    match roleOf e with
    | .error err => .error err
    | .ok r => .ok (r != "system")

/-- Whether a list element is a Python string (`isinstance(m, str)`). -/
def isStrElem : Elem → Bool
  | .str _ => true
  | .dict _ => false

/-- Whether a list element is a dict having both "role" and "content" keys
(`isinstance(m, dict) and "role" in m and "content" in m`). -/
def wellFormed : Elem → Bool
  | .str _ => false
  | .dict en => (lookupStr "role" en).isSome && (lookupStr "content" en).isSome

/-- A list element as it ends up in the queue: strings were converted to
user dicts by the all-strings branch, dicts pass through unchanged. -/
def elemToQ : Elem → QElem
  | .str s => userDict s
  | .dict en => .dict en

/-- Outcome of the normalization phase of structure_message, before the
queue is touched. -/
inductive NormRes where
  | ok (msgs : List QElem)
  | invalid
  | notIterable
deriving DecidableEq, Repr

/-- The normalization phase of structure_message: a string becomes one user
message; a list of strings becomes user messages; a list that is not all
strings and not all well-formed dicts raises ValueError; any other list of
well-formed dicts passes through. A bare dict is not validated: Python
`list.extend(dict)` iterates the keys of the dict. A non-iterable input
makes `extend` raise TypeError before the queue is modified. -/
def normalizeInput : PyInput → NormRes
  | .str s => .ok [userDict s]
  | .int _ => .notIterable
  | .dict en => .ok (en.map (fun p => QElem.raw p.1))
  | .list elems =>
    if elems.all isStrElem then .ok (elems.map elemToQ)
    else if elems.all wellFormed then .ok (elems.map elemToQ)
    else .invalid

/-- structure_message on a queue: normalization, in-place extend, trimming
when the length exceeds max_chat_history, and insertion of the system
message when the head is missing or not system. The returned queue reflects
the in-place mutations performed up to the point where an exception (if
any) was raised; the second component is that exception. The slice in the
trim is Python `self.messages_queue[-(self.max_chat_history-1):]`. -/
def structMsgQ (maxHist : Nat) (sp : String) (q : List QElem)
    (input : PyInput) : List QElem × Option PyErr :=
  match normalizeInput input with
  | .invalid => (q, some .valueError)
  | .notIterable => (q, some .typeError)
  | .ok msgs =>
    let q1 := q ++ msgs
    if q1.length > maxHist then
      match filterSystems q1 with
      | .error e => (q1, some e)
      | .ok sysMsgs =>
        let q2 := sysMsgs ++ pySlice (-((maxHist : Int) - 1)) q1
        match headNeedsInsert q2 with
        | .error e => (q2, some e)
        | .ok b => (if b then sysDict sp :: q2 else q2, none)
    else
      match headNeedsInsert q1 with
      | .error e => (q1, some e)
      | .ok b => (if b then sysDict sp :: q1 else q1, none)

/-- Adapter state relevant to the queue operations: the messages queue and
the current system prompt (set_system_prompt mutates the latter). -/
structure AdState where
  queue : List QElem
  sysPrompt : String
deriving DecidableEq, Repr

/-- structure_message acting on the adapter state. -/
def structMsgS (maxHist : Nat) (st : AdState) (input : PyInput) :
    AdState × Option PyErr :=
  let r := structMsgQ maxHist st.sysPrompt st.queue input
  ({ st with queue := r.1 }, r.2)

/-- The generator expression `any(message["role"] == "system" for message in
self.messages_queue)`: short-circuits on the first system message, raising
at the first element where the role lookup raises. -/
def anySystem : List QElem → Except PyErr Bool
  | [] => .ok false
  | e :: rest =>
    match roleOf e with
    | .error err => .error err
    | .ok r => if r == "system" then .ok true else anySystem rest

/-- Python dict assignment `d["content"] = v`: overwrite in place if the key
exists (position preserved), otherwise append the new key at the end. -/
def setContent (en : List (String × String)) (v : String) :
    List (String × String) :=
  if en.any (fun p => p.1 == "content") then
    en.map (fun p => if p.1 == "content" then (p.1, v) else p)
  else en ++ [("content", v)]

/-- set_system_prompt: store the prompt, then insert a system message at
index 0 when none exists anywhere in the queue, otherwise overwrite the
content of the element at index 0. -/
def set_system_prompt (st : AdState) (p : String) : AdState × Option PyErr :=
  let st1 : AdState := { st with sysPrompt := p }
  match anySystem st1.queue with
  | .error e => (st1, some e)
  | .ok b =>
    if b then
      match st1.queue with
      | [] => (st1, some .indexError)
      | e :: rest =>
        match e with
        | .raw _ => (st1, some .typeError)
        | .dict en =>
          ({ st1 with queue := QElem.dict (setContent en p) :: rest }, none)
    else ({ st1 with queue := sysDict p :: st1.queue }, none)

/-- clear_history: replace the queue with just the system message. -/
def clear_history (st : AdState) : AdState :=
  { st with queue := [sysDict st.sysPrompt] }

/-- First occurrence of a non-empty separator in a character list: returns
the part before it and the part after it, or none when it does not occur. -/
def findSplit (sep : List Char) : List Char → Option (List Char × List Char)
  | [] => none
  | c :: cs =>
    if sep.isPrefixOf (c :: cs) then some ([], (c :: cs).drop sep.length)
    else
      match findSplit sep cs with
      | none => none
      | some (pre, post) => some (c :: pre, post)

/-- Repeated splitting on the separator. The fuel bounds the number of
pieces; callers pass one more than the input length, which a non-empty
separator can never exhaust. -/
def pySplitList (sep : List Char) : Nat → List Char → List (List Char)
  | 0, cs => [cs]
  | fuel + 1, cs =>
    match findSplit sep cs with
    | none => [cs]
    | some (pre, post) => pre :: pySplitList sep fuel post

/-- Python `s.split(sep)` for a non-empty separator: non-overlapping
occurrences scanned left to right, empty pieces kept. -/
def pySplit (sep s : String) : List String :=
  (pySplitList sep.data (s.data.length + 1) s.data).map (fun cs => ⟨cs⟩)

/-- extract_code: `response.split('```')[1]` (IndexError when the fence
does not occur), then drop the first line of that piece. -/
def extract_code (response : String) : Except PyErr (List String) :=
  match pySplit "```" response with
  | _ :: second :: _ => .ok ((pySplit "\n" second).drop 1)
  | _ => .error .indexError

/-- Errors raised by the remote completion call: the provider-specific API
error class (openai.APIError) or any other exception. -/
inductive ProvErr where
  | apiError (msg : String)
  | other (msg : String)
deriving DecidableEq, Repr

/-- Whether an exception is an instance of openai.APIError. -/
def isApiError : ProvErr → Bool
  | .apiError _ => true
  | .other _ => false

/-- Observable outcome of one run of retry_with_exponential_backoff: the
returned value or the exception that escapes, the number of invocations of
the wrapped callable, and the number of backoff sleeps performed. -/
structure RetryTrace (α : Type) where
  result : Except ProvErr α
  calls : Nat
  sleeps : Nat
deriving DecidableEq, Repr

/-- retry_with_exponential_backoff. The Python code carries an upward
counter `retries`; here `left = max_retry - retries` is the remaining
budget, so the Python test `retries + 1 > self.max_retry` is `left = 0`.
`stub i` is the outcome of the i-th invocation of the wrapped callable
(the stub of the claims fails or succeeds by invocation index). An
exception not matched by the except clause escapes immediately. -/
def retryGo (catchable : ProvErr → Bool) (stub : Nat → Except ProvErr α) :
    Nat → Nat → RetryTrace α
  | left, attempt =>
    match stub attempt with
    | .ok v => ⟨.ok v, 1, 0⟩
    | .error e =>
      if catchable e then
        match left with
        | 0 => ⟨.error e, 1, 0⟩
        | l + 1 =>
          let t := retryGo catchable stub l (attempt + 1)
          ⟨t.result, t.calls + 1, t.sleeps + 1⟩
      else ⟨.error e, 1, 0⟩

/-- GroqChat.retry_with_exponential_backoff: the except clause catches
Exception, i.e. every failure. -/
def groqRetryRun (maxRetry : Nat) (stub : Nat → Except ProvErr α) :
    RetryTrace α :=
  retryGo (fun _ => true) stub maxRetry 0

/-- OpenAiChat.retry_with_exponential_backoff: the except clause catches
only openai.APIError. -/
def openaiRetryRun (maxRetry : Nat) (stub : Nat → Except ProvErr α) :
    RetryTrace α :=
  retryGo isApiError stub maxRetry 0

/-- An error escaping get_response: an exception from structure_message or
one from the remote call. -/
inductive RunErr where
  | py (e : PyErr)
  | prov (e : ProvErr)
deriving DecidableEq, Repr

/-- OpenAiChat.get_response: structure_message runs before the try block,
so its exceptions propagate; the retry executor catches only APIError; an
APIError escaping the executor is caught by the `except openai.APIError`
clause, logged and swallowed, so the function falls through and returns
None (modelled as `.ok none`); any other exception is re-raised. On
success the assistant message is appended and the content returned. -/
def openai_get_response (maxHist maxRetry : Nat) (st : AdState)
    (input : PyInput) (remote : Nat → Except ProvErr String) :
    AdState × Except RunErr (Option String) :=
  let s1 := structMsgS maxHist st input
  match s1.2 with
  | some e => (s1.1, .error (.py e))
  | none =>
    let t := openaiRetryRun maxRetry remote
    match t.result with
    | .ok content =>
      ({ s1.1 with queue := s1.1.queue ++ [assistantDict content] },
        .ok (some content))
    | .error (.apiError _) => (s1.1, .ok none)
    | .error (.other m) => (s1.1, .error (.prov (.other m)))

/-- GroqChat.get_response: like the OpenAI variant but the executor catches
every exception, and every exception escaping the try block is re-raised
(nothing is swallowed). -/
def groq_get_response (maxHist maxRetry : Nat) (st : AdState)
    (input : PyInput) (remote : Nat → Except ProvErr String) :
    AdState × Except RunErr (Option String) :=
  let s1 := structMsgS maxHist st input
  match s1.2 with
  | some e => (s1.1, .error (.py e))
  | none =>
    let t := groqRetryRun maxRetry remote
    match t.result with
    | .ok content =>
      ({ s1.1 with queue := s1.1.queue ++ [assistantDict content] },
        .ok (some content))
    | .error e => (s1.1, .error (.prov e))

/-- Whether a queue element is a message dict with role "system". -/
def sysElem (e : QElem) : Bool :=
  match e with
  | .dict en => lookupStr "role" en == some "system"
  | .raw _ => false

/-- Whether a queue element is a message dict with a readable role that is
not "system". -/
def cleanNonSys (e : QElem) : Bool :=
  match e with
  | .dict en =>
    (lookupStr "role" en).isSome && !(lookupStr "role" en == some "system")
  | .raw _ => false

/-- An element of a structured input list that is a dict with role and
content keys and a role other than "system". -/
def goodDictElem : Elem → Bool
  | .str _ => false
  | .dict en =>
    (lookupStr "role" en).isSome && (lookupStr "content" en).isSome &&
      !(lookupStr "role" en == some "system")

/-- Inputs to structure_message that are a string, a list of strings, or a
list of well-formed message dicts none of which carries role "system". -/
def GoodInput : PyInput → Bool
  | .str _ => true
  | .list elems => elems.all isStrElem || elems.all goodDictElem
  | .dict _ => false
  | .int _ => false

/-- The queue invariant: length at most maxHist + 1, and when non-empty the
head is a system message dict and every later element is a message dict
with a non-system role. -/
def QInv (maxHist : Nat) (q : List QElem) : Prop :=
  q.length ≤ maxHist + 1 ∧
    match q with
    | [] => True
    | h :: t => sysElem h = true ∧ ∀ e ∈ t, cleanNonSys e = true

/-- Adapter states reachable from a fresh adapter by structure_message
calls alone, with inputs restricted by GoodInput. -/
inductive ReachA (maxHist : Nat) (sp0 : String) : AdState → Prop where
  | init : ReachA maxHist sp0 ⟨[], sp0⟩
  | append (st : AdState) (inp : PyInput) : ReachA maxHist sp0 st →
      GoodInput inp = true → ReachA maxHist sp0 (structMsgS maxHist st inp).1

/-- Adapter states reachable from a fresh adapter by structure_message
(with GoodInput inputs), set_system_prompt and clear_history. -/
inductive Reach (maxHist : Nat) (sp0 : String) : AdState → Prop where
  | init : Reach maxHist sp0 ⟨[], sp0⟩
  | append (st : AdState) (inp : PyInput) : Reach maxHist sp0 st →
      GoodInput inp = true → Reach maxHist sp0 (structMsgS maxHist st inp).1
  | setp (st : AdState) (p : String) : Reach maxHist sp0 st →
      Reach maxHist sp0 (set_system_prompt st p).1
  | clear (st : AdState) : Reach maxHist sp0 st →
      Reach maxHist sp0 (clear_history st)

/-- A system element answers "system" to the role lookup. -/
theorem sysElem_roleOf (e : QElem) (h : sysElem e = true) :
    roleOf e = .ok "system" := by
  cases e with
  | raw s => simp [sysElem] at h
  | dict en =>
    simp only [sysElem, beq_iff_eq] at h
    simp [roleOf, h]

/-- A clean non-system element answers some role other than "system". -/
theorem cleanNonSys_roleOf (e : QElem) (h : cleanNonSys e = true) :
    ∃ r, roleOf e = .ok r ∧ (r == "system") = false := by
  cases e with
  | raw s => simp [cleanNonSys] at h
  | dict en =>
    simp only [cleanNonSys, Bool.and_eq_true, Bool.not_eq_true',
      beq_eq_false_iff_ne, ne_eq] at h
    obtain ⟨h1, h2⟩ := h
    obtain ⟨r, hr⟩ := Option.isSome_iff_exists.mp h1
    refine ⟨r, by simp [roleOf, hr], ?_⟩
    simp only [beq_eq_false_iff_ne, ne_eq]
    intro hh
    exact h2 (hh ▸ hr)

/-- The system-message comprehension keeps nothing from a list of clean
non-system elements. -/
theorem filterSystems_clean (l : List QElem)
    (h : ∀ e ∈ l, cleanNonSys e = true) : filterSystems l = .ok [] := by
  induction l with
  | nil => rfl
  | cons e rest ih =>
    obtain ⟨r, hr, hne⟩ := cleanNonSys_roleOf e (h e (by simp))
    have hrest : filterSystems rest = .ok [] :=
      ih (fun x hx => h x (by simp [hx]))
    simp [filterSystems, hr, hrest, hne]

/-- The system-message comprehension keeps exactly the head when the head
is the system message and the tail is clean non-system. -/
theorem filterSystems_sysHead (h : QElem) (t : List QElem)
    (hh : sysElem h = true) (ht : ∀ e ∈ t, cleanNonSys e = true) :
    filterSystems (h :: t) = .ok [h] := by
  have hr := sysElem_roleOf h hh
  have hrest := filterSystems_clean t ht
  simp [filterSystems, hr, hrest]

/-- A queue of clean non-system elements (possibly empty) triggers the
system-message insertion. -/
theorem headNeedsInsert_clean (l : List QElem)
    (h : ∀ e ∈ l, cleanNonSys e = true) : headNeedsInsert l = .ok true := by
  cases l with
  | nil => rfl
  | cons e rest =>
    obtain ⟨r, hr, hne⟩ := cleanNonSys_roleOf e (h e (by simp))
    simp [headNeedsInsert, hr, bne, hne]

/-- A queue headed by the system message does not trigger the insertion. -/
theorem headNeedsInsert_sys (h : QElem) (t : List QElem)
    (hh : sysElem h = true) : headNeedsInsert (h :: t) = .ok false := by
  have hr := sysElem_roleOf h hh
  simp [headNeedsInsert, hr, bne]

theorem sysElem_sysDict (p : String) : sysElem (sysDict p) = true := rfl

theorem cleanNonSys_userDict (s : String) :
    cleanNonSys (userDict s) = true := rfl

theorem cleanNonSys_assistantDict (s : String) :
    cleanNonSys (assistantDict s) = true := rfl

/-- A GoodInput normalizes without error to clean non-system messages. -/
theorem goodInput_norm (inp : PyInput) (hi : GoodInput inp = true) :
    ∃ msgs, normalizeInput inp = .ok msgs ∧
      ∀ e ∈ msgs, cleanNonSys e = true := by
  cases inp with
  | str s => exact ⟨[userDict s], rfl, by simp [cleanNonSys_userDict]⟩
  | dict en => simp [GoodInput] at hi
  | int n => simp [GoodInput] at hi
  | list elems =>
    simp only [GoodInput, Bool.or_eq_true, List.all_eq_true] at hi
    cases hi with
    | inl hstr =>
      have hs : elems.all isStrElem = true := List.all_eq_true.mpr hstr
      refine ⟨elems.map elemToQ, by simp [normalizeInput, hs], ?_⟩
      intro e he
      obtain ⟨x, hx, hxe⟩ := List.mem_map.mp he
      cases x with
      | str s => rw [← hxe]; exact cleanNonSys_userDict s
      | dict en => exact absurd (hstr _ hx) (by simp [isStrElem])
    | inr hdict =>
      have hwf : ∀ x ∈ elems, wellFormed x = true := by
        intro x hx
        have := hdict x hx
        cases x with
        | str s => simp [goodDictElem] at this
        | dict en =>
          simp only [goodDictElem, Bool.and_eq_true] at this
          simp [wellFormed, this.1.1, this.1.2]
      have hw : elems.all wellFormed = true := List.all_eq_true.mpr hwf
      refine ⟨elems.map elemToQ, ?_, ?_⟩
      · by_cases hs : elems.all isStrElem = true
        · simp [normalizeInput, hs]
        · have hs' : elems.all isStrElem = false := by
            rwa [Bool.not_eq_true] at hs
          simp [normalizeInput, hs', hw]
      · intro e he
        obtain ⟨x, hx, hxe⟩ := List.mem_map.mp he
        have := hdict x hx
        cases x with
        | str s => simp [goodDictElem] at this
        | dict en =>
          simp only [goodDictElem, Bool.and_eq_true, Bool.not_eq_true',
            beq_eq_false_iff_ne, ne_eq] at this
          rw [← hxe]
          simp [elemToQ, cleanNonSys, this.1.1, this.2]

/-- The trimming slice is an ordinary drop when max_chat_history is at
least 2 and the queue is longer than max_chat_history. -/
theorem pySlice_trim (maxHist : Nat) (l : List α) (hm : 2 ≤ maxHist) :
    pySlice (-((maxHist : Int) - 1)) l = l.drop (l.length - (maxHist - 1)) := by
  unfold pySlice
  rw [if_pos (by omega)]
  congr 1
  omega

/-- Dropping a positive count from a cons skips the head. -/
theorem drop_cons_of_pos (d : Nat) (h : α) (l : List α) (hd : 1 ≤ d) :
    (h :: l).drop d = l.drop (d - 1) := by
  cases d with
  | zero => omega
  | succ k => simp [List.drop_succ_cons]

/-- One structure_message call with a GoodInput on an invariant-satisfying
queue raises nothing and preserves the invariant, provided
max_chat_history is at least 2. -/
theorem structMsgQ_step (maxHist : Nat) (sp : String) (q : List QElem)
    (inp : PyInput) (hm : 2 ≤ maxHist) (hq : QInv maxHist q)
    (hi : GoodInput inp = true) :
    (structMsgQ maxHist sp q inp).2 = none ∧
      QInv maxHist (structMsgQ maxHist sp q inp).1 := by
  obtain ⟨msgs, hnorm, hclean⟩ := goodInput_norm inp hi
  obtain ⟨hlen, hshape⟩ := hq
  cases q with
  | nil =>
    by_cases hgt : msgs.length > maxHist
    · have hfs : filterSystems msgs = .ok [] := filterSystems_clean _ hclean
      have hsl : pySlice (-((maxHist : Int) - 1)) msgs =
          msgs.drop (msgs.length - (maxHist - 1)) := pySlice_trim maxHist msgs hm
      have hw : ∀ e ∈ msgs.drop (msgs.length - (maxHist - 1)),
          cleanNonSys e = true :=
        fun e he => hclean e (List.drop_subset _ _ he)
      have hni : headNeedsInsert (msgs.drop (msgs.length - (maxHist - 1))) =
          .ok true := headNeedsInsert_clean _ hw
      have hstep : structMsgQ maxHist sp [] inp =
          (sysDict sp :: msgs.drop (msgs.length - (maxHist - 1)), none) := by
        simp only [structMsgQ, hnorm, List.nil_append]
        rw [if_pos hgt]
        simp only [hfs, hsl, hni, List.nil_append]
        rfl
      rw [hstep]
      refine ⟨rfl, ?_, ?_⟩
      · simp only [List.length_cons, List.length_drop]
        omega
      · exact ⟨sysElem_sysDict sp, hw⟩
    · have hni : headNeedsInsert msgs = .ok true :=
        headNeedsInsert_clean _ hclean
      have hstep : structMsgQ maxHist sp [] inp =
          (sysDict sp :: msgs, none) := by
        simp only [structMsgQ, hnorm, List.nil_append]
        rw [if_neg hgt]
        simp only [hni]
        rfl
      rw [hstep]
      refine ⟨rfl, ?_, ?_⟩
      · simp only [List.length_cons]
        omega
      · exact ⟨sysElem_sysDict sp, hclean⟩
  | cons h t =>
    obtain ⟨hsys, htc⟩ := hshape
    have htm : ∀ e ∈ t ++ msgs, cleanNonSys e = true := by
      intro e he
      rcases List.mem_append.mp he with h1 | h2
      · exact htc e h1
      · exact hclean e h2
    by_cases hgt : (h :: (t ++ msgs)).length > maxHist
    · have hfs : filterSystems (h :: (t ++ msgs)) = .ok [h] :=
        filterSystems_sysHead h (t ++ msgs) hsys htm
      have hsl : pySlice (-((maxHist : Int) - 1)) (h :: (t ++ msgs)) =
          (h :: (t ++ msgs)).drop
            ((h :: (t ++ msgs)).length - (maxHist - 1)) :=
        pySlice_trim maxHist _ hm
      have hdpos : 1 ≤ (h :: (t ++ msgs)).length - (maxHist - 1) := by
        simp only [List.length_cons] at hgt ⊢
        omega
      have hdc : (h :: (t ++ msgs)).drop
            ((h :: (t ++ msgs)).length - (maxHist - 1)) =
          (t ++ msgs).drop
            ((h :: (t ++ msgs)).length - (maxHist - 1) - 1) :=
        drop_cons_of_pos _ _ _ hdpos
      have hw : ∀ e ∈ (t ++ msgs).drop
            ((h :: (t ++ msgs)).length - (maxHist - 1) - 1),
          cleanNonSys e = true :=
        fun e he => htm e (List.drop_subset _ _ he)
      have hni : headNeedsInsert (h :: (t ++ msgs).drop
            ((h :: (t ++ msgs)).length - (maxHist - 1) - 1)) = .ok false :=
        headNeedsInsert_sys _ _ hsys
      have hstep : structMsgQ maxHist sp (h :: t) inp =
          (h :: (t ++ msgs).drop
            ((h :: (t ++ msgs)).length - (maxHist - 1) - 1), none) := by
        simp only [structMsgQ, hnorm, List.cons_append]
        rw [if_pos hgt]
        simp only [hfs, hsl, hdc, List.singleton_append, hni]
        rfl
      rw [hstep]
      refine ⟨rfl, ?_, ?_⟩
      · simp only [List.length_cons, List.length_drop, List.length_append]
          at hgt ⊢
        omega
      · exact ⟨hsys, hw⟩
    · have hni : headNeedsInsert (h :: (t ++ msgs)) = .ok false :=
        headNeedsInsert_sys _ _ hsys
      have hstep : structMsgQ maxHist sp (h :: t) inp =
          (h :: (t ++ msgs), none) := by
        simp only [structMsgQ, hnorm, List.cons_append]
        rw [if_neg hgt]
        simp only [hni]
        rfl
      rw [hstep]
      refine ⟨rfl, ?_, ?_⟩
      · simp only [List.length_cons, List.length_append] at hgt ⊢
        omega
      · exact ⟨hsys, htm⟩

/-- Unfolding of the dict lookup on a cons. -/
theorem lookupStr_cons (k : String) (kv : String × String)
    (rest : List (String × String)) :
    lookupStr k (kv :: rest) =
      if kv.1 == k then some kv.2 else lookupStr k rest := by
  simp only [lookupStr, List.find?_cons]
  cases h : (kv.1 == k) <;> simp [h]

/-- Overwriting the content values of a dict leaves the role lookup
unchanged. -/
theorem lookupRole_map_setC (en : List (String × String)) (v : String) :
    lookupStr "role"
      (en.map (fun p => if p.1 == "content" then (p.1, v) else p)) =
      lookupStr "role" en := by
  induction en with
  | nil => rfl
  | cons kv rest ih =>
    rw [List.map_cons, lookupStr_cons, lookupStr_cons]
    have hfst : (if (kv.1 == "content") = true then (kv.1, v) else kv).1 =
        kv.1 := by
      by_cases hk : (kv.1 == "content") = true
      · rw [if_pos hk]
      · rw [if_neg hk]
    rw [hfst]
    by_cases hr : (kv.1 == "role") = true
    · rw [if_pos hr, if_pos hr]
      have hkc : ¬((kv.1 == "content") = true) := by
        have hkr : kv.1 = "role" := eq_of_beq hr
        simp [hkr]
      rw [if_neg hkc]
    · rw [if_neg hr, if_neg hr]
      exact ih

/-- Appending a "content" entry at the end leaves the role lookup
unchanged. -/
theorem lookupRole_append_content (en : List (String × String)) (v : String) :
    lookupStr "role" (en ++ [("content", v)]) = lookupStr "role" en := by
  induction en with
  | nil => rfl
  | cons kv rest ih =>
    rw [List.cons_append, lookupStr_cons, lookupStr_cons]
    by_cases hr : (kv.1 == "role") = true
    · rw [if_pos hr, if_pos hr]
    · rw [if_neg hr, if_neg hr]
      exact ih

/-- Python `d["content"] = v` leaves the role lookup unchanged. -/
theorem lookupRole_setContent (en : List (String × String)) (v : String) :
    lookupStr "role" (setContent en v) = lookupStr "role" en := by
  unfold setContent
  by_cases hc : en.any (fun p => p.1 == "content") = true
  · rw [if_pos hc]
    exact lookupRole_map_setC en v
  · rw [if_neg hc]
    exact lookupRole_append_content en v

/-- Overwriting the content of a system dict keeps it a system dict. -/
theorem sysElem_setContent (en : List (String × String)) (p : String)
    (h : sysElem (.dict en) = true) :
    sysElem (.dict (setContent en p)) = true := by
  simp only [sysElem] at h ⊢
  rw [lookupRole_setContent]
  exact h

/-- set_system_prompt on an invariant-satisfying queue raises nothing and
preserves the invariant. -/
theorem set_system_prompt_step (maxHist : Nat) (st : AdState) (p : String)
    (hq : QInv maxHist st.queue) :
    (set_system_prompt st p).2 = none ∧
      QInv maxHist (set_system_prompt st p).1.queue := by
  obtain ⟨q, sp⟩ := st
  obtain ⟨hlen, hshape⟩ := hq
  cases q with
  | nil =>
    have hstep : set_system_prompt ⟨[], sp⟩ p = (⟨[sysDict p], p⟩, none) :=
      rfl
    rw [hstep]
    exact ⟨rfl, by simp, sysElem_sysDict p,
      fun e he => absurd he (List.not_mem_nil e)⟩
  | cons h t =>
    obtain ⟨hsys, htc⟩ := hshape
    have ha : anySystem (h :: t) = .ok true := by
      have hr := sysElem_roleOf h hsys
      simp [anySystem, hr]
    cases h with
    | raw s => simp [sysElem] at hsys
    | dict en =>
      have hstep : set_system_prompt ⟨.dict en :: t, sp⟩ p =
          (⟨.dict (setContent en p) :: t, p⟩, none) := by
        simp only [set_system_prompt, ha]
        rfl
      rw [hstep]
      refine ⟨rfl, ?_, ?_⟩
      · simpa using hlen
      · exact ⟨sysElem_setContent en p hsys, htc⟩

/-- clear_history always re-establishes the invariant. -/
theorem clear_history_step (maxHist : Nat) (st : AdState) :
    QInv maxHist (clear_history st).queue := by
  refine ⟨by simp [clear_history], ?_⟩
  exact ⟨sysElem_sysDict _, fun e he => absurd he (List.not_mem_nil e)⟩

/-- Every state reachable by structure_message, set_system_prompt and
clear_history satisfies the queue invariant, for max_chat_history at
least 2 and GoodInput inputs. -/
theorem reach_inv (maxHist : Nat) (sp0 : String) (st : AdState)
    (hm : 2 ≤ maxHist) (hr : Reach maxHist sp0 st) :
    QInv maxHist st.queue := by
  induction hr with
  | init => exact ⟨by simp, trivial⟩
  | append st inp hst hgood ih =>
    exact (structMsgQ_step maxHist st.sysPrompt st.queue inp hm ih hgood).2
  | setp st p hst ih => exact (set_system_prompt_step maxHist st p ih).2
  | clear st hst ih => exact clear_history_step maxHist st

/-- Every state reachable by structure_message alone satisfies the queue
invariant, for max_chat_history at least 2 and GoodInput inputs. -/
theorem reachA_inv (maxHist : Nat) (sp0 : String) (st : AdState)
    (hm : 2 ≤ maxHist) (hr : ReachA maxHist sp0 st) :
    QInv maxHist st.queue := by
  induction hr with
  | init => exact ⟨by simp, trivial⟩
  | append st inp hst hgood ih =>
    exact (structMsgQ_step maxHist st.sysPrompt st.queue inp hm ih hgood).2

/-- One retry step: a successful invocation returns at once. -/
theorem retryGo_ok (catchable : ProvErr → Bool)
    (stub : Nat → Except ProvErr α) (left attempt : Nat) (v : α)
    (h : stub attempt = .ok v) :
    retryGo catchable stub left attempt = ⟨.ok v, 1, 0⟩ := by
  rw [retryGo, h]

/-- One retry step: an exception the except clause does not match escapes
at once. -/
theorem retryGo_uncaught (catchable : ProvErr → Bool)
    (stub : Nat → Except ProvErr α) (left attempt : Nat) (e : ProvErr)
    (h : stub attempt = .error e) (hc : catchable e = false) :
    retryGo catchable stub left attempt = ⟨.error e, 1, 0⟩ := by
  rw [retryGo, h]
  simp [hc]

/-- One retry step: a caught exception with exhausted budget re-raises. -/
theorem retryGo_stop (catchable : ProvErr → Bool)
    (stub : Nat → Except ProvErr α) (attempt : Nat) (e : ProvErr)
    (h : stub attempt = .error e) (hc : catchable e = true) :
    retryGo catchable stub 0 attempt = ⟨.error e, 1, 0⟩ := by
  rw [retryGo, h]
  simp [hc]

/-- One retry step: a caught exception with remaining budget sleeps once
and re-invokes. -/
theorem retryGo_again (catchable : ProvErr → Bool)
    (stub : Nat → Except ProvErr α) (l attempt : Nat) (e : ProvErr)
    (h : stub attempt = .error e) (hc : catchable e = true) :
    retryGo catchable stub (l + 1) attempt =
      ⟨(retryGo catchable stub l (attempt + 1)).result,
        (retryGo catchable stub l (attempt + 1)).calls + 1,
        (retryGo catchable stub l (attempt + 1)).sleeps + 1⟩ := by
  rw [retryGo, h]
  simp [hc]

/-- A stub failing with caught errors on every invocation up to the budget
exhausts the budget: the last error escapes after left + 1 invocations and
left sleeps. -/
theorem retryGo_exhaust (catchable : ProvErr → Bool)
    (stub : Nat → Except ProvErr α) (errs : Nat → ProvErr)
    (hc : ∀ i, catchable (errs i) = true) :
    ∀ left attempt, (∀ i, i ≤ attempt + left → stub i = .error (errs i)) →
      retryGo catchable stub left attempt =
        ⟨.error (errs (attempt + left)), left + 1, left⟩ := by
  intro left
  induction left with
  | zero =>
    intro attempt hf
    exact retryGo_stop catchable stub attempt (errs attempt)
      (hf attempt (by omega)) (hc attempt)
  | succ l ih =>
    intro attempt hf
    rw [retryGo_again catchable stub l attempt (errs attempt)
      (hf attempt (by omega)) (hc attempt)]
    rw [ih (attempt + 1) (fun i hi => hf i (by omega))]
    have harith : attempt + 1 + l = attempt + (l + 1) := by omega
    rw [harith]

/-- A stub failing on its first k invocations and succeeding afterwards,
run with enough budget, returns the success value after k - attempt
sleeps. -/
theorem retryGo_succeeds (catchable : ProvErr → Bool) (errs : Nat → ProvErr)
    (v : α) (k : Nat) (hc : ∀ i, catchable (errs i) = true) :
    ∀ left attempt, k ≤ attempt + left → attempt ≤ k →
      retryGo catchable
        (fun i => if i < k then .error (errs i) else .ok v) left attempt =
        ⟨.ok v, k - attempt + 1, k - attempt⟩ := by
  intro left
  induction left with
  | zero =>
    intro attempt h1 h2
    have hak : attempt = k := by omega
    subst hak
    rw [retryGo_ok catchable _ 0 attempt v (by simp)]
    simp
  | succ l ih =>
    intro attempt h1 h2
    by_cases hak : attempt = k
    · subst hak
      rw [retryGo_ok catchable _ (l + 1) attempt v (by simp)]
      simp
    · have hlt : attempt < k := by omega
      rw [retryGo_again catchable _ l attempt (errs attempt)
        (by simp [hlt]) (hc attempt)]
      rw [ih (attempt + 1) (by omega) (by omega)]
      have h3 : k - (attempt + 1) + 1 = k - attempt := by omega
      have h4 : k - (attempt + 1) + 1 + 1 = k - attempt + 1 := by omega
      simp only [h3, h4]

/-- A clean non-system element is not a system element. -/
theorem cleanNonSys_not_sys (e : QElem) (h : cleanNonSys e = true) :
    sysElem e = false := by
  cases e with
  | raw s => rfl
  | dict en =>
    simp only [cleanNonSys, Bool.and_eq_true, Bool.not_eq_true'] at h
    simpa [sysElem] using h.2

/-- Claim C1 (code bug): the OpenAI adapter with a remote call that fails
with the provider API error on every attempt exhausts the retry budget,
the re-raised APIError is caught by the bare except clause of
get_response, logged and swallowed, and get_response terminates normally
returning None: neither a full reply nor an exception, contradicting the
stated no-partial-success policy (the Groq variant re-raises instead). -/
theorem c1_openai_swallows_api_error :
    openai_get_response 10 2 ⟨[], "You are a helpful assistant."⟩
      (.str "hi") (fun _ => .error (.apiError "server error")) =
    (⟨[sysDict "You are a helpful assistant.", userDict "hi"],
        "You are a helpful assistant."⟩,
      .ok none) := by decide

/-- Claim C2 (counterexample): with maxHistory = 3 and the three calls of
the scenario, the final queue length is 4, not 3 as claimed: the assistant
message is appended after trimming, so the queue ends one over the cap. -/
theorem c2_counterexample :
    (let sp := "You are a helpful assistant."
     let s1 := openai_get_response 3 10 ⟨[], sp⟩ (.str "hi")
       (fun _ => .ok "r1")
     let s2 := openai_get_response 3 10 s1.1 (.str "again")
       (fun _ => .ok "r2")
     let s3 := openai_get_response 3 10 s2.1 (.str "third")
       (fun _ => .ok "r3")
     s3.1.queue.length ≠ 3) := by decide

/-- Claim C2 (amended): the scenario of the claim ends with a queue of
length exactly 4 whose element at index 0 is the system message. -/
theorem c2_amended :
    (let sp := "You are a helpful assistant."
     let s1 := openai_get_response 3 10 ⟨[], sp⟩ (.str "hi")
       (fun _ => .ok "r1")
     let s2 := openai_get_response 3 10 s1.1 (.str "again")
       (fun _ => .ok "r2")
     let s3 := openai_get_response 3 10 s2.1 (.str "third")
       (fun _ => .ok "r3")
     s3.1.queue.length = 4 ∧ s3.1.queue.take 1 = [sysDict sp]) := by decide

/-- Claim C3 (counterexample): on the spec input the extracted code is not
the single line claimed: the newline before the closing fence yields a
trailing empty line. -/
theorem c3_counterexample :
    extract_code "intro\n```python\nprint(1)\n```\noutro" ≠
      .ok ["print(1)"] := by decide

/-- Claim C3 (amended): on the spec input, extract_code returns the code
line followed by one empty line coming from the newline that precedes the
closing fence. -/
theorem c3_amended :
    extract_code "intro\n```python\nprint(1)\n```\noutro" =
      .ok ["print(1)", ""] := by decide

/-- Claim C4 (counterexample): an input with exactly one fence delimiter
(fewer than two, so no closed code block) does not fail: extract_code
returns the text after the lone fence minus its first line. -/
theorem c4_counterexample :
    (pySplit "```" "intro\n```python\nprint(1)").length = 2 ∧
      extract_code "intro\n```python\nprint(1)" = .ok ["print(1)"] := by
  decide

/-- Claim C4 (amended): extract_code fails (with the IndexError standing
for CodeBlockNotFound) exactly when the input contains zero fence
delimiters, i.e. when splitting on the fence yields fewer than two
pieces; one unclosed fence already succeeds. -/
theorem c4_amended (s : String) :
    extract_code s = .error .indexError ↔ (pySplit "```" s).length < 2 := by
  unfold extract_code
  cases h : pySplit "```" s with
  | nil => simp
  | cons a t =>
    cases t with
    | nil => simp
    | cons b t2 => simp

/-- Claim C5 (counterexample): with maxHistory = 2, a single accepted
append of two strings to the empty queue leaves a queue of length 3: the
system-message insertion runs after the length check, so the length
exceeds the configured maxHistory. -/
theorem c5_counterexample :
    (structMsgQ 2 "You are a helpful assistant." []
        (.list [.str "a", .str "b"])).2 = none ∧
      (structMsgQ 2 "You are a helpful assistant." []
        (.list [.str "a", .str "b"])).1.length = 3 := by decide

/-- Claim C5 (amended): for maxHistory at least 2 and inputs that are a
string, a list of strings, or a list of well-formed message objects with
no system role, the queue length after any sequence of structure_message
calls from the empty queue never exceeds maxHistory + 1. -/
theorem c5_amended (maxHist : Nat) (sp0 : String) (st : AdState)
    (hm : 2 ≤ maxHist) (hr : ReachA maxHist sp0 st) :
    st.queue.length ≤ maxHist + 1 :=
  (reachA_inv maxHist sp0 st hm hr).1

/-- Claim C5 (witness): the amended bound evaluated after one append of
two strings with maxHistory = 2, where the length reaches 3. -/
theorem c5_amended_witness :
    ((structMsgS 2 ⟨[], "p"⟩ (.list [.str "a", .str "b"])).1).queue.length ≤
      3 :=
  c5_amended 2 "p" (structMsgS 2 ⟨[], "p"⟩ (.list [.str "a", .str "b"])).1
    (by decide)
    (ReachA.append ⟨[], "p"⟩ (.list [.str "a", .str "b"]) ReachA.init
      (by decide))

/-- Claim C6 (counterexample): structured message objects with role
"system" are accepted input, and appending one to a queue that already has
its system message yields two system-role messages, the second away from
index 0. -/
theorem c6_counterexample :
    (let s1 := structMsgS 10 ⟨[], "p"⟩ (.str "hi")
     let s2 := structMsgS 10 s1.1
       (.list [.dict [("role", "system"), ("content", "evil")]])
     s1.2 = none ∧ s2.2 = none ∧
       s2.1.queue.countP (fun e => sysElem e) = 2) := by decide

/-- Claim C6 (amended): for maxHistory at least 2 and appended inputs
restricted to strings, string lists, and well-formed message objects with
no system role, every state reachable by structure_message,
set_system_prompt and clear_history has at most one system-role message,
and it sits at index 0 whenever the queue is non-empty. -/
theorem c6_amended (maxHist : Nat) (sp0 : String) (st : AdState)
    (hm : 2 ≤ maxHist) (hr : Reach maxHist sp0 st) :
    st.queue.countP (fun e => sysElem e) ≤ 1 ∧
      (st.queue ≠ [] → sysElem st.queue.headI = true) := by
  have hinv := reach_inv maxHist sp0 st hm hr
  cases hq : st.queue with
  | nil => simp
  | cons h t =>
    rw [hq] at hinv
    obtain ⟨-, hsys, ht⟩ := hinv
    have h0 : t.countP (fun e => sysElem e) = 0 :=
      List.countP_eq_zero.mpr
        (fun a ha => by simp [cleanNonSys_not_sys a (ht a ha)])
    constructor
    · simp [List.countP_cons, h0, hsys]
    · intro _
      simpa [List.headI] using hsys

/-- Claim C6 (witness): the amended invariant evaluated at the state
reached by clear_history from a fresh adapter. -/
theorem c6_amended_witness :
    (clear_history ⟨[], "p"⟩).queue.countP (fun e => sysElem e) ≤ 1 ∧
      ((clear_history ⟨[], "p"⟩).queue ≠ [] →
        sysElem (clear_history ⟨[], "p"⟩).queue.headI = true) :=
  c6_amended 2 "p" (clear_history ⟨[], "p"⟩) (by decide)
    (Reach.clear ⟨[], "p"⟩ Reach.init)

/-- Claim C7: the retry executor run against a stub that fails on its
first k invocations and succeeds on invocation k + 1: with maxRetries at
least k it returns the success value after exactly k delayed retries
(k + 1 invocations); with maxRetries below k it re-raises the last
underlying error after exactly maxRetries + 1 invocations and
maxRetries delayed waits. -/
theorem c7_retry_executor (k maxRetry : Nat) (errs : Nat → ProvErr)
    (v : String) :
    groqRetryRun maxRetry
        (fun i => if i < k then .error (errs i) else .ok v) =
      if k ≤ maxRetry then ⟨.ok v, k + 1, k⟩
      else ⟨.error (errs maxRetry), maxRetry + 1, maxRetry⟩ := by
  unfold groqRetryRun
  by_cases h : k ≤ maxRetry
  · rw [if_pos h]
    have hs := retryGo_succeeds (fun _ => true) errs v k (fun _ => rfl)
      maxRetry 0 (by omega) (by omega)
    simpa using hs
  · rw [if_neg h]
    have he := retryGo_exhaust (fun _ => true)
      (fun i => if i < k then .error (errs i) else .ok v) errs
      (fun _ => rfl) maxRetry 0
      (fun i hi => by
        have hik : i < k := by omega
        simp [hik])
    simpa using he

/-- Claim C8 (code bug): a bare dict is neither a string, a list of
strings, nor a list of message objects, yet structure_message raises
nothing: Python list.extend iterates the keys of the dict, so the queue is
silently extended with the bare strings "role" and "content", corrupting
it instead of failing with InvalidMessageFormat and leaving it
unmodified. -/
theorem c8_bare_dict_accepted :
    structMsgQ 10 "You are a helpful assistant."
        [sysDict "You are a helpful assistant."]
        (.dict [("role", "user"), ("content", "hi")]) =
      ([sysDict "You are a helpful assistant.", .raw "role",
        .raw "content"], none) := by decide

/-- Claim C9: the two retry executors differ exactly on non-APIError
failures: the OpenAI executor re-raises such an error on the first
invocation with zero retries and zero sleeps, while the Groq executor
retries every failure through the whole budget; on APIError failures the
OpenAI executor retries like the Groq one. -/
theorem c9_executor_divergence (maxRetry : Nat) (msg : String) :
    openaiRetryRun maxRetry
        (fun _ => (.error (.other msg) : Except ProvErr String)) =
      ⟨.error (.other msg), 1, 0⟩ ∧
    groqRetryRun maxRetry
        (fun _ => (.error (.other msg) : Except ProvErr String)) =
      ⟨.error (.other msg), maxRetry + 1, maxRetry⟩ ∧
    openaiRetryRun maxRetry
        (fun _ => (.error (.apiError msg) : Except ProvErr String)) =
      ⟨.error (.apiError msg), maxRetry + 1, maxRetry⟩ := by
  refine ⟨?_, ?_, ?_⟩
  · exact retryGo_uncaught isApiError _ maxRetry 0 (.other msg) rfl rfl
  · have he := retryGo_exhaust (fun _ => true)
      (fun _ => (.error (.other msg) : Except ProvErr String))
      (fun _ => .other msg) (fun _ => rfl) maxRetry 0 (fun _ _ => rfl)
    simpa using he
  · have he := retryGo_exhaust isApiError
      (fun _ => (.error (.apiError msg) : Except ProvErr String))
      (fun _ => .apiError msg) (fun _ => rfl) maxRetry 0 (fun _ _ => rfl)
    simpa using he

/-- Claim C10 (counterexample): appending the empty list to a queue whose
length exceeds maxHistory (such a queue is reachable, see the C5
counterexample) triggers the trim: with maxHistory = 2 the element
userDict "a" is dropped, so the append of nothing changes existing
messages. -/
theorem c10_counterexample :
    (structMsgQ 2 "p" [sysDict "p", userDict "a", userDict "b"]
        (.list [])).2 = none ∧
      (structMsgQ 2 "p" [sysDict "p", userDict "a", userDict "b"]
        (.list [])).1 = [sysDict "p", userDict "b"] := by decide

/-- Claim C10 (amended): appending the empty list never raises, and on a
queue whose length is at most maxHistory (and whose head, if any, has a
readable role) the only effect is inserting the system message at index 0
when the queue is empty or its head is not the system message; otherwise
the queue is returned unchanged. -/
theorem c10_amended (maxHist : Nat) (sp : String) (q : List QElem)
    (b : Bool) (hlen : q.length ≤ maxHist)
    (hh : headNeedsInsert q = .ok b) :
    structMsgQ maxHist sp q (.list []) =
      (if b then sysDict sp :: q else q, none) := by
  have hn : normalizeInput (.list []) = .ok [] := rfl
  simp only [structMsgQ, hn, List.append_nil]
  rw [if_neg (by omega : ¬q.length > maxHist), hh]

/-- Claim C10 (witness): the amended statement evaluated on a one-element
queue holding the system message, which is returned unchanged. -/
theorem c10_amended_witness :
    structMsgQ 2 "p" [sysDict "p"] (.list []) = ([sysDict "p"], none) :=
  c10_amended 2 "p" [sysDict "p"] false (by decide) (by decide)




